import Mathlib

/-!
Shallow embedding of the inventory/sales core of `src/inventario_mongo_tk.py`.

The MongoDB collections are modelled as Lean lists of documents:
`productos : List Producto` and `ventas : List Venta`.  The store
operations are modelled by their contract (see spec section 6):
`find_one(filtro)` returns the first document matching the filter,
`insert_one` appends, `update_one(filtro, {"$set": datos})` merges the
given fields into the first matching document, `find(filtro).sort(campo, 1)`
returns the matching documents sorted ascending by the field (and `-1`
descending), and a `$regex`/`$options: "i"` filter is the store contract's
case-insensitive substring match.  Prices (Python floats) are modelled as
rationals; quantities and product ids as integers; timestamps as integers
at one-second granularity.  A Python function that raises is modelled as
returning `Except`; the caller's state is unchanged on an error, exactly
as an exception raised before any write leaves the database untouched.
-/

namespace Inventario

/-- A document of the `productos` collection, as built by `agregar_producto`. -/
structure Producto where
  id_producto : Int
  nombre : String
  categoria : String
  precio : ℚ
  cantidad : Int
  proveedor : String
deriving DecidableEq

/-- A document of the `ventas` collection, as built by `realizar_venta`. -/
structure Venta where
  id_producto : Int
  nombre : String
  cantidad : Int
  precio_unitario : ℚ
  total : ℚ
  fecha : Int
  usuario : Option String
deriving DecidableEq

/-- The `nuevos_datos` dictionary passed to `modificar_producto`: a partial
set of product fields merged by the store's `$set` operator.  The product id
is never part of it (the GUI never sends it). -/
structure Datos where
  nombre : Option String := none
  categoria : Option String := none
  precio : Option ℚ := none
  cantidad : Option Int := none
  proveedor : Option String := none
deriving DecidableEq

/-- The two business collections of the database `tienda_informatica`. -/
structure Estado where
  productos : List Producto
  ventas : List Venta
deriving DecidableEq

/-- `CATEGORIAS` from the source. -/
def CATEGORIAS : List String := ["Computadoras", "Smartphones", "Accesorios", "Periféricos"]

/-- `STOCK_MINIMO` from the source. -/
def STOCK_MINIMO : Int := 5

/-- The `ValueError`s `agregar_producto` can raise, one per check, in source
order. -/
inductive ErrorAgregar where
  | nombreVacio
  | categoriaInvalida
  | precioNegativo
  | cantidadNegativa
  | proveedorVacio
  | idDuplicado
deriving DecidableEq

/-- The `ValueError`s `realizar_venta` can raise, one per check, in source
order. -/
inductive ErrorVenta where
  | noExiste
  | cantidadInvalida
  | stockInsuficiente
deriving DecidableEq

/-- The `ValueError`s `buscar_producto` can raise: `int(valor)` failing on the
id branch, or an unknown criterion. -/
inductive ErrorBusqueda where
  | valorNoNumerico
  | criterioInvalido
deriving DecidableEq

/-- `coleccion_productos.find_one({"id_producto": id_producto})`. -/
def findProducto (id : Int) (c : List Producto) : Option Producto :=
  c.find? fun p => p.id_producto == id

/-- `agregar_producto` (source lines 108-137): five field validations in
source order, then the duplicate-id lookup, then `insert_one`. -/
def agregarProducto (c : List Producto) (id : Int) (nombre categoria : String)
    (precio : ℚ) (cantidad : Int) (proveedor : String) :
    Except ErrorAgregar (List Producto) :=
  if nombre = "" then .error .nombreVacio
  else if categoria ∉ CATEGORIAS then .error .categoriaInvalida
  else if precio < 0 then .error .precioNegativo
  else if cantidad < 0 then .error .cantidadNegativa
  else if proveedor = "" then .error .proveedorVacio
  else if (findProducto id c).isSome then .error .idDuplicado
  else .ok (c ++ [{ id_producto := id, nombre := nombre, categoria := categoria,
                    precio := precio, cantidad := cantidad, proveedor := proveedor }])

/-- The store's `$set` field merge applied to one document. -/
def aplicarDatos (d : Datos) (p : Producto) : Producto :=
  { id_producto := p.id_producto
    nombre := d.nombre.getD p.nombre
    categoria := d.categoria.getD p.categoria
    precio := d.precio.getD p.precio
    cantidad := d.cantidad.getD p.cantidad
    proveedor := d.proveedor.getD p.proveedor }

/-- `modificar_producto` (source lines 161-169): `update_one` on the first
document matching the id, returning `matched_count > 0`.  Runs no
validation on `nuevos_datos`. -/
def modificarProducto (id : Int) (d : Datos) : List Producto → List Producto × Bool
  | [] => ([], false)
  | p :: resto =>
    if p.id_producto == id then (aplicarDatos d p :: resto, true)
    else
      let r := modificarProducto id d resto
      (p :: r.1, r.2)

/-- `eliminar_producto` (source lines 172-177): `delete_one` on the first
document matching the id, returning `deleted_count > 0`. -/
def eliminarProducto (id : Int) : List Producto → List Producto × Bool
  | [] => ([], false)
  | p :: resto =>
    if p.id_producto == id then (resto, true)
    else
      let r := eliminarProducto id resto
      (p :: r.1, r.2)

/-- Whether the first character list is an initial segment of the second. -/
def esPrefijo : List Char → List Char → Bool
  | [], _ => true
  | _ :: _, [] => false
  | a :: l1, b :: l2 => a == b && esPrefijo l1 l2

/-- Whether the first character list occurs contiguously inside the second. -/
def contieneLista (pat : List Char) : List Char → Bool
  | [] => esPrefijo pat []
  | c :: resto => esPrefijo pat (c :: resto) || contieneLista pat resto

/-- The store contract for a `{"$regex": valor, "$options": "i"}` filter:
case-insensitive substring containment (spec section 6). -/
def contieneCI (valor s : String) : Bool :=
  contieneLista (valor.data.map Char.toLower) (s.data.map Char.toLower)

/-- Ascending order by product id: the `.sort("id_producto", 1)` contract. -/
def ordenAsc (a b : Producto) : Prop := a.id_producto ≤ b.id_producto

instance : DecidableRel ordenAsc := fun a b =>
  inferInstanceAs (Decidable (a.id_producto ≤ b.id_producto))

instance : IsTotal Producto ordenAsc := ⟨fun a b => Int.le_total a.id_producto b.id_producto⟩

instance : IsTrans Producto ordenAsc := ⟨fun _ _ _ h1 h2 => le_trans h1 h2⟩

/-- The search criteria strings used by `buscar_producto`. -/
def criterioId : String := "id"

def criterioNombre : String := "nombre"

def criterioProveedor : String := "proveedor"

def criterioCategoria : String := "categoria"

/-- `buscar_producto` (source lines 140-158): builds the filter from the
criterion and runs `find(filtro).sort("id_producto", 1)`.  The `id` branch
converts the value with `int(valor)`, which raises on non-numeric input. -/
def buscarProducto (criterio valor : String) (c : List Producto) :
    Except ErrorBusqueda (List Producto) :=
  if criterio = "id" then
    match valor.toInt? with
    | none => .error .valorNoNumerico
    | some n => .ok (List.insertionSort ordenAsc (c.filter fun p => p.id_producto == n))
  else if criterio = "nombre" then
    .ok (List.insertionSort ordenAsc (c.filter fun p => contieneCI valor p.nombre))
  else if criterio = "proveedor" then
    .ok (List.insertionSort ordenAsc (c.filter fun p => contieneCI valor p.proveedor))
  else if criterio = "categoria" then
    .ok (List.insertionSort ordenAsc (c.filter fun p => p.categoria == valor))
  else .error .criterioInvalido

/-- `mostrar_inventario` (source lines 180-185): full catalog sorted by id. -/
def mostrarInventario (c : List Producto) : List Producto :=
  List.insertionSort ordenAsc c

/-- `realizar_venta` (source lines 188-232).  `insercionOk` models whether
the best-effort `insert_one` into the `ventas` collection succeeds (its
exception is caught and only printed; a missing connection skips it).
The stock decrement is the same `update_one`/`$set` call as
`modificar_producto`, restricted to the `cantidad` field.  On any raised
error the state is returned unchanged because the raise happens before the
writes. -/
def realizarVenta (id cantidadVendida : Int) (usuario : Option String) (fecha : Int)
    (insercionOk : Bool) (s : Estado) : Estado × Except ErrorVenta ℚ :=
  match findProducto id s.productos with
  | none => (s, .error .noExiste)
  | some prod =>
    if cantidadVendida ≤ 0 then (s, .error .cantidadInvalida)
    else if prod.cantidad < cantidadVendida then (s, .error .stockInsuficiente)
    else
      let nuevoStock := prod.cantidad - cantidadVendida
      let productos' := (modificarProducto id { cantidad := some nuevoStock } s.productos).1
      let total : ℚ := (cantidadVendida : ℚ) * prod.precio
      let ventas' :=
        if insercionOk then
          s.ventas ++ [{ id_producto := id, nombre := prod.nombre,
                         cantidad := cantidadVendida, precio_unitario := prod.precio,
                         total := total, fecha := fecha, usuario := usuario }]
        else s.ventas
      ({ productos := productos', ventas := ventas' }, .ok total)

/-- `generar_reporte` (source lines 235-248): one `find()` of the whole
catalog, then a single pass accumulating the total value and collecting the
products strictly below `STOCK_MINIMO`. -/
def generarReporte (c : List Producto) : List Producto × ℚ :=
  c.foldl
    (fun acc p =>
      (if p.cantidad < STOCK_MINIMO then acc.1 ++ [p] else acc.1,
       acc.2 + (p.cantidad : ℚ) * p.precio))
    ([], 0)

/-- The filter document built by `obtener_ventas` (source lines 251-275):
exact `usuario` match when the filter is truthy (Python `if filtro_usuario:`
skips both `None` and the empty string), and an inclusive
`$gte`/`$lte` timestamp range. -/
def filtroVentas (filtroUsuario : Option String) (fechaDesde fechaHasta : Option Int)
    (v : Venta) : Bool :=
  (match filtroUsuario with
   | none => true
   | some u => if u = "" then true else v.usuario == some u) &&
  (match fechaDesde with
   | none => true
   | some d => decide (d ≤ v.fecha)) &&
  (match fechaHasta with
   | none => true
   | some h => decide (v.fecha ≤ h))

/-- Descending order by timestamp: the `.sort("fecha", -1)` contract. -/
def ordenDesc (a b : Venta) : Prop := b.fecha ≤ a.fecha

instance : DecidableRel ordenDesc := fun a b =>
  inferInstanceAs (Decidable (b.fecha ≤ a.fecha))

instance : IsTotal Venta ordenDesc := ⟨fun a b => Int.le_total b.fecha a.fecha⟩

instance : IsTrans Venta ordenDesc := ⟨fun _ _ _ h1 h2 => le_trans h2 h1⟩

/-- `obtener_ventas` (source lines 251-275). -/
def obtenerVentas (filtroUsuario : Option String) (fechaDesde fechaHasta : Option Int)
    (vs : List Venta) : List Venta :=
  List.insertionSort ordenDesc (vs.filter (filtroVentas filtroUsuario fechaDesde fechaHasta))

/-- `fecha_hasta.replace(hour=23, minute=59, second=59)` in `cargar_ventas`
(source lines 614-641), at one-second granularity: a parsed calendar date is
the timestamp of its midnight and the widened bound is the last second of
that day. -/
def finDeDia (medianoche : Int) : Int := medianoche + 86399

/-- `cargar_ventas` (source lines 614-641), after date parsing: an empty
user box becomes no filter (`filtro_usuario or None`), a given end date is
widened to the end of its day, and `obtener_ventas` does the query. -/
def cargarVentas (filtroUsuario : String) (fechaDesde fechaHasta : Option Int)
    (vs : List Venta) : List Venta :=
  obtenerVentas (if filtroUsuario = "" then none else some filtroUsuario)
    fechaDesde (fechaHasta.map finDeDia) vs

/-- One service call against the two collections, for stating properties of
call sequences (the spec's Add/Update/Execute). -/
inductive Op where
  | agregar (id : Int) (nombre categoria : String) (precio : ℚ) (cantidad : Int)
      (proveedor : String)
  | modificar (id : Int) (d : Datos)
  | venta (id cantidadVendida : Int) (usuario : Option String) (fecha : Int)
      (insercionOk : Bool)

/-- Effect of one call on the database state.  A call that raises leaves the
state unchanged, as in the source every raise happens before any write. -/
def applyOp (s : Estado) (op : Op) : Estado :=
  match op with
  | .agregar id n cat p q prov =>
    match agregarProducto s.productos id n cat p q prov with
    | .ok c' => { s with productos := c' }
    | .error _ => s
  | .modificar id d => { s with productos := (modificarProducto id d s.productos).1 }
  | .venta id q u f insercionOk => (realizarVenta id q u f insercionOk s).1

/-- A sequence of service calls. -/
def run (ops : List Op) (s : Estado) : Estado := ops.foldl applyOp s

/-- The five field validations of `agregar_producto`, as one predicate. -/
def camposValidos (nombre categoria : String) (precio : ℚ) (cantidad : Int)
    (proveedor : String) : Prop :=
  nombre ≠ "" ∧ categoria ∈ CATEGORIAS ∧ 0 ≤ precio ∧ 0 ≤ cantidad ∧ proveedor ≠ ""

instance (nombre categoria : String) (precio : ℚ) (cantidad : Int) (proveedor : String) :
    Decidable (camposValidos nombre categoria precio cantidad proveedor) := by
  unfold camposValidos
  infer_instance

/-- The data-model invariant for one product (spec section 3). -/
def invProducto (p : Producto) : Prop := 0 ≤ p.cantidad ∧ 0 ≤ p.precio

instance (p : Producto) : Decidable (invProducto p) := by
  unfold invProducto
  infer_instance

/-- The data-model invariant for the catalog. -/
def invCatalogo (c : List Producto) : Prop := ∀ p ∈ c, invProducto p

instance (c : List Producto) : Decidable (invCatalogo c) :=
  inferInstanceAs (Decidable (∀ p ∈ c, invProducto p))

/-- An Update payload whose numeric fields, when present, are non-negative. -/
def datosNoNegativos (d : Datos) : Bool :=
  (d.precio.all fun x => decide (0 ≤ x)) && (d.cantidad.all fun x => decide (0 ≤ x))

/-- A call that cannot introduce a negative price or quantity: any Add or
Execute, and an Update whose supplied numeric fields are non-negative. -/
def opSegura : Op → Bool
  | .modificar _ d => datosNoNegativos d
  | _ => true

/-! Concrete sample data, shared by witnesses and counterexamples. -/

def nomMouse : String := "Mouse"

def catAccesorios : String := "Accesorios"

def provAcme : String := "Acme"

def cadenaVacia : String := ""

def usuarioAna : String := "ana"

/-- The sample product of the spec's concrete scenario (section 8). -/
def P0 : Producto :=
  { id_producto := 1, nombre := "Mouse", categoria := "Accesorios",
    precio := 10, cantidad := 3, proveedor := "Acme" }

/-- A database holding just the sample product and no sales. -/
def estado0 : Estado := { productos := [P0], ventas := [] }

/-- An Update payload carrying a negative price. -/
def datosNegativos : Datos := { precio := some (-1) }

/-- Add a valid product, then Update it with a negative price: each call runs
without a validation error. -/
def opsC3 : List Op :=
  [.agregar 1 nomMouse catAccesorios 10 3 provAcme, .modificar 1 datosNegativos]

/-- An Add, a sale, and an Update whose supplied fields are non-negative. -/
def opsTestigo : List Op :=
  [.agregar 1 nomMouse catAccesorios 10 3 provAcme,
   .venta 1 2 (some usuarioAna) 0 true,
   .modificar 1 { cantidad := some 7 }]

/-- A sample sale record. -/
def ventaEjemplo : Venta :=
  { id_producto := 1, nombre := nomMouse, cantidad := 2, precio_unitario := 10,
    total := 20, fecha := 50, usuario := some usuarioAna }

/-! Helper lemmas. -/

theorem aplicarDatos_id (d : Datos) (p : Producto) :
    (aplicarDatos d p).id_producto = p.id_producto := rfl

/-- Updating the first document with a given id and then looking the id up
returns exactly the merged document. -/
theorem findProducto_modificarProducto (id : Int) (d : Datos) (c : List Producto) :
    findProducto id (modificarProducto id d c).1
      = (findProducto id c).map (aplicarDatos d) := by
  induction c with
  | nil => rfl
  | cons p resto ih =>
    by_cases h : p.id_producto == id
    · simp [findProducto, modificarProducto, h, aplicarDatos_id, List.find?_cons]
    · simpa [findProducto, modificarProducto, h, List.find?_cons] using ih

/-- Every document of the updated catalog is an old document or the merge of
an old document. -/
theorem mem_modificarProducto {id : Int} {d : Datos} {c : List Producto} {p : Producto}
    (h : p ∈ (modificarProducto id d c).1) :
    p ∈ c ∨ ∃ p0 ∈ c, p = aplicarDatos d p0 := by
  induction c with
  | nil => simp [modificarProducto] at h
  | cons q resto ih =>
    by_cases hq : q.id_producto == id
    · simp only [modificarProducto, hq, if_pos, List.mem_cons] at h
      rcases h with h | h
      · exact .inr ⟨q, by simp, h⟩
      · exact .inl (by simp [h])
    · simp only [modificarProducto, hq, Bool.false_eq_true, if_neg, List.mem_cons,
        not_false_iff] at h
      rcases h with h | h
      · exact .inl (by simp [h])
      · rcases ih h with h1 | ⟨p0, hp0, he⟩
        · exact .inl (by simp [h1])
        · exact .inr ⟨p0, by simp [hp0], he⟩

/-- Characterization of a successful `agregar_producto`: all validations
passed, the id was free, and the document was appended. -/
theorem agregarProducto_ok {c c' : List Producto} {id : Int} {n cat : String} {p : ℚ}
    {q : Int} {prov : String}
    (h : agregarProducto c id n cat p q prov = .ok c') :
    camposValidos n cat p q prov ∧ (findProducto id c).isSome = false ∧
      c' = c ++ [{ id_producto := id, nombre := n, categoria := cat, precio := p,
                   cantidad := q, proveedor := prov }] := by
  unfold agregarProducto at h
  split_ifs at h with h1 h2 h3 h4 h5 h6
  cases h
  exact ⟨⟨h1, h2, not_lt.mp h3, not_lt.mp h4, h5⟩, by simpa using h6, rfl⟩

/-- No service call ever removes or rewrites an existing sale record. -/
theorem ventas_realizarVenta (id q : Int) (u : Option String) (f : Int) (b : Bool)
    (s : Estado) :
    ∃ t, (realizarVenta id q u f b s).1.ventas = s.ventas ++ t := by
  rcases hf : findProducto id s.productos with _ | prod <;>
    simp only [realizarVenta, hf]
  · exact ⟨[], by simp⟩
  · split_ifs with h1 h2 h3
    · exact ⟨[], by simp⟩
    · exact ⟨[], by simp⟩
    · exact ⟨_, rfl⟩
    · exact ⟨[], by simp⟩

theorem ventas_applyOp (s : Estado) (op : Op) :
    ∃ t, (applyOp s op).ventas = s.ventas ++ t := by
  cases op with
  | agregar id n cat p q prov =>
    simp only [applyOp]
    rcases hres : agregarProducto s.productos id n cat p q prov with e | c' <;> simp
  | modificar id d => exact ⟨[], by simp [applyOp]⟩
  | venta id q u f insercionOk => exact ventas_realizarVenta id q u f insercionOk s

theorem run_cons (op : Op) (ops : List Op) (s : Estado) :
    run (op :: ops) s = run ops (applyOp s op) := rfl

theorem ventas_run (ops : List Op) (s : Estado) :
    ∃ t, (run ops s).ventas = s.ventas ++ t := by
  induction ops generalizing s with
  | nil => exact ⟨[], by simp [run]⟩
  | cons op resto ih =>
    obtain ⟨t1, h1⟩ := ventas_applyOp s op
    obtain ⟨t2, h2⟩ := ih (applyOp s op)
    exact ⟨t1 ++ t2, by rw [run_cons, h2, h1, List.append_assoc]⟩

/-- The single pass of `generar_reporte`, generalized over the accumulator. -/
theorem generarReporte_foldl (c : List Producto) (accL : List Producto) (accQ : ℚ) :
    c.foldl
        (fun acc p =>
          (if p.cantidad < STOCK_MINIMO then acc.1 ++ [p] else acc.1,
           acc.2 + (p.cantidad : ℚ) * p.precio))
        (accL, accQ)
      = (accL ++ c.filter (fun p => decide (p.cantidad < STOCK_MINIMO)),
         accQ + (c.map fun p => (p.cantidad : ℚ) * p.precio).sum) := by
  induction c generalizing accL accQ with
  | nil => simp
  | cons p resto ih =>
    rw [List.foldl_cons, ih, List.filter_cons, List.map_cons, List.sum_cons]
    by_cases h : p.cantidad < STOCK_MINIMO <;> simp [h, List.append_assoc, add_assoc]

/-- A successful Add preserves the catalog invariant. -/
theorem invCatalogo_agregar {c c' : List Producto} {id : Int} {n cat : String} {p : ℚ}
    {q : Int} {prov : String} (hinv : invCatalogo c)
    (h : agregarProducto c id n cat p q prov = .ok c') : invCatalogo c' := by
  obtain ⟨⟨-, -, hp, hq, -⟩, -, rfl⟩ := agregarProducto_ok h
  intro x hx
  rcases List.mem_append.mp hx with hx | hx
  · exact hinv x hx
  · simp only [List.mem_singleton] at hx
    subst hx
    exact ⟨hq, hp⟩

/-- An Update whose supplied numeric fields are non-negative preserves the
catalog invariant. -/
theorem invCatalogo_modificar {c : List Producto} {id : Int} {d : Datos}
    (hinv : invCatalogo c) (hd : datosNoNegativos d = true) :
    invCatalogo (modificarProducto id d c).1 := by
  intro x hx
  rcases mem_modificarProducto hx with hx | ⟨p0, hp0, rfl⟩
  · exact hinv x hx
  · have h0 := hinv p0 hp0
    rw [datosNoNegativos, Bool.and_eq_true] at hd
    constructor
    · rcases hc : d.cantidad with _ | x2
      · simpa [invProducto, aplicarDatos, hc] using h0.1
      · have := hd.2
        rw [hc] at this
        simpa [invProducto, aplicarDatos, hc] using of_decide_eq_true (by simpa using this)
    · rcases hc : d.precio with _ | x2
      · simpa [invProducto, aplicarDatos, hc] using h0.2
      · have := hd.1
        rw [hc] at this
        simpa [invProducto, aplicarDatos, hc] using of_decide_eq_true (by simpa using this)

/-- A sale preserves the catalog invariant: the decremented quantity is
`old - sold` with `sold ≤ old`, and the price is untouched. -/
theorem invCatalogo_venta {s : Estado} (id q : Int) (u : Option String) (f : Int) (b : Bool)
    (hinv : invCatalogo s.productos) :
    invCatalogo (realizarVenta id q u f b s).1.productos := by
  rcases hf : findProducto id s.productos with _ | prod <;>
    simp only [realizarVenta, hf]
  · exact hinv
  · split_ifs with h1 h2 h3 <;>
      first
        | exact hinv
        | exact invCatalogo_modificar hinv
            (by
              have hq : 0 ≤ prod.cantidad - q := by omega
              simp [datosNoNegativos, hq])

theorem invCatalogo_applyOp {s : Estado} {op : Op} (hinv : invCatalogo s.productos)
    (hop : opSegura op = true) : invCatalogo (applyOp s op).productos := by
  cases op with
  | agregar id n cat p q prov =>
    simp only [applyOp]
    rcases hres : agregarProducto s.productos id n cat p q prov with e | c'
    · exact hinv
    · exact invCatalogo_agregar hinv hres
  | modificar id d => exact invCatalogo_modificar hinv (by simpa [opSegura] using hop)
  | venta id q u f insercionOk => exact invCatalogo_venta id q u f insercionOk hinv

/-! Claim theorems. -/

/-- C1: for a product with current quantity `Q` and price `P`, and any
`quantity_sold` `q` with `0 < q ≤ Q`, `realizar_venta` succeeds, writes the
product's quantity as exactly `Q - q`, and returns `q * P`, the price read
before the decrement.  Holds whether or not the best-effort sale insert
succeeds. -/
theorem venta_exitosa_decrementa_y_devuelve_total (pid q : Int) (u : Option String)
    (f : Int) (b : Bool) (s : Estado) (prod : Producto)
    (hfind : findProducto pid s.productos = some prod)
    (hpos : 0 < q) (hq : q ≤ prod.cantidad) :
    (realizarVenta pid q u f b s).2 = .ok ((q : ℚ) * prod.precio) ∧
    findProducto pid (realizarVenta pid q u f b s).1.productos
      = some { prod with cantidad := prod.cantidad - q } := by
  have h1 : ¬ q ≤ 0 := by omega
  have h2 : ¬ prod.cantidad < q := by omega
  refine ⟨by simp [realizarVenta, hfind, h1, h2], ?_⟩
  simp only [realizarVenta, hfind, if_neg h1, if_neg h2]
  rw [findProducto_modificarProducto, hfind]
  rfl

theorem venta_exitosa_testigo :
    (realizarVenta 1 2 none 0 true estado0).2 = .ok (((2 : Int) : ℚ) * P0.precio) ∧
    findProducto 1 (realizarVenta 1 2 none 0 true estado0).1.productos
      = some { P0 with cantidad := P0.cantidad - 2 } :=
  venta_exitosa_decrementa_y_devuelve_total 1 2 none 0 true estado0 P0 rfl
    (by decide) (by decide)

/-- C2: for a (well-formed, hence non-negative-stock) product with current
quantity `Q`, a request of `q > Q` fails with the insufficient-stock error
and both collections are unchanged: the raise happens before any write. -/
theorem venta_sin_stock_falla (pid q : Int) (u : Option String) (f : Int) (b : Bool)
    (s : Estado) (prod : Producto)
    (hfind : findProducto pid s.productos = some prod)
    (hQ : 0 ≤ prod.cantidad) (hlt : prod.cantidad < q) :
    realizarVenta pid q u f b s = (s, .error .stockInsuficiente) := by
  have h1 : ¬ q ≤ 0 := by omega
  simp [realizarVenta, hfind, h1, hlt]

theorem venta_sin_stock_testigo :
    realizarVenta 1 5 none 0 true estado0 = (estado0, .error .stockInsuficiente) :=
  venta_sin_stock_falla 1 5 none 0 true estado0 P0 rfl (by decide) (by decide)

/-- C4: when all checks pass and the stock decrement is written, a failing
sale-record insert (`insercionOk = false`, the caught exception of the
source) does not fail the call and does not roll back: the total is still
returned and the quantity stays decremented; only the sale record is lost. -/
theorem venta_con_insercion_fallida (pid q : Int) (u : Option String) (f : Int)
    (s : Estado) (prod : Producto)
    (hfind : findProducto pid s.productos = some prod)
    (hpos : 0 < q) (hq : q ≤ prod.cantidad) :
    (realizarVenta pid q u f false s).2 = .ok ((q : ℚ) * prod.precio) ∧
    (realizarVenta pid q u f false s).1.ventas = s.ventas ∧
    findProducto pid (realizarVenta pid q u f false s).1.productos
      = some { prod with cantidad := prod.cantidad - q } := by
  have h1 : ¬ q ≤ 0 := by omega
  have h2 : ¬ prod.cantidad < q := by omega
  refine ⟨by simp [realizarVenta, hfind, h1, h2],
    by simp [realizarVenta, hfind, h1, h2], ?_⟩
  simp only [realizarVenta, hfind, if_neg h1, if_neg h2]
  rw [findProducto_modificarProducto, hfind]
  rfl

theorem venta_insercion_fallida_testigo :
    (realizarVenta 1 2 none 0 false estado0).2 = .ok (((2 : Int) : ℚ) * P0.precio) ∧
    (realizarVenta 1 2 none 0 false estado0).1.ventas = estado0.ventas ∧
    findProducto 1 (realizarVenta 1 2 none 0 false estado0).1.productos
      = some { P0 with cantidad := P0.cantidad - 2 } :=
  venta_con_insercion_fallida 1 2 none 0 estado0 P0 rfl (by decide) (by decide)

/-- C9: a successful sale appends exactly one record whose `total` equals its
own `cantidad * precio_unitario`, with `precio_unitario` the product price
read before the decrement; and no sequence of service calls ever rewrites an
existing sale record (the collection only grows by appending). -/
theorem venta_registra_total_consistente (pid q : Int) (u : Option String) (f : Int)
    (s : Estado) (prod : Producto)
    (hfind : findProducto pid s.productos = some prod)
    (hpos : 0 < q) (hq : q ≤ prod.cantidad) :
    (∃ r : Venta,
      (realizarVenta pid q u f true s).1.ventas = s.ventas ++ [r] ∧
      r.cantidad = q ∧ r.precio_unitario = prod.precio ∧
      r.total = (r.cantidad : ℚ) * r.precio_unitario) ∧
    ∀ (ops : List Op) (s2 : Estado), ∃ t, (run ops s2).ventas = s2.ventas ++ t := by
  have h1 : ¬ q ≤ 0 := by omega
  have h2 : ¬ prod.cantidad < q := by omega
  refine ⟨⟨{ id_producto := pid, nombre := prod.nombre, cantidad := q,
             precio_unitario := prod.precio, total := (q : ℚ) * prod.precio,
             fecha := f, usuario := u }, ?_, rfl, rfl, rfl⟩,
    fun ops s2 => ventas_run ops s2⟩
  simp [realizarVenta, hfind, h1, h2]

theorem venta_registro_testigo :
    (∃ r : Venta,
      (realizarVenta 1 2 (some usuarioAna) 7 true estado0).1.ventas
        = estado0.ventas ++ [r] ∧
      r.cantidad = 2 ∧ r.precio_unitario = P0.precio ∧
      r.total = (r.cantidad : ℚ) * r.precio_unitario) ∧
    ∀ (ops : List Op) (s2 : Estado), ∃ t, (run ops s2).ventas = s2.ventas ++ t :=
  venta_registra_total_consistente 1 2 (some usuarioAna) 7 estado0 P0 rfl
    (by decide) (by decide)

/-- C5 (amended): an Add on an id already present never succeeds and leaves
the state unchanged; it fails with the duplicate-id conflict exactly when the
fields pass validation (with invalid fields the earlier validation error
fires instead, see C10). -/
theorem agregar_duplicado_falla (c : List Producto) (id : Int) (n cat : String)
    (p : ℚ) (q : Int) (prov : String)
    (hdup : (findProducto id c).isSome = true) :
    (∃ e, agregarProducto c id n cat p q prov = .error e) ∧
    (camposValidos n cat p q prov →
      agregarProducto c id n cat p q prov = .error .idDuplicado) ∧
    (∀ s : Estado, s.productos = c → applyOp s (.agregar id n cat p q prov) = s) := by
  have herr : ∀ c2, agregarProducto c id n cat p q prov = .ok c2 → False := by
    intro c2 hok
    obtain ⟨-, hfree, -⟩ := agregarProducto_ok hok
    rw [hdup] at hfree
    exact Bool.noConfusion hfree
  refine ⟨?_, ?_, ?_⟩
  · rcases hres : agregarProducto c id n cat p q prov with e | c2
    · exact ⟨e, rfl⟩
    · exact (herr c2 hres).elim
  · rintro ⟨h1, h2, h3, h4, h5⟩
    unfold agregarProducto
    rw [if_neg h1, if_neg (not_not_intro h2), if_neg (not_lt.mpr h3),
      if_neg (not_lt.mpr h4), if_neg h5, if_pos hdup]
  · intro s hs
    rcases hres : agregarProducto s.productos id n cat p q prov with e | c2
    · simp [applyOp, hres]
    · rw [hs] at hres
      exact (herr c2 hres).elim

theorem agregar_duplicado_testigo :
    agregarProducto [P0] 1 nomMouse catAccesorios 10 3 provAcme
      = .error .idDuplicado :=
  (agregar_duplicado_falla [P0] 1 nomMouse catAccesorios 10 3 provAcme
    (by decide)).2.1 (by decide)

/-- C5 counterexample to the claim as stated: with a duplicate id but an
empty name, Add fails with the name validation error, not the conflict
error. -/
theorem agregar_duplicado_contraejemplo :
    (findProducto 1 [P0]).isSome = true ∧
    agregarProducto [P0] 1 cadenaVacia catAccesorios 10 3 provAcme
      = .error .nombreVacio ∧
    ErrorAgregar.nombreVacio ≠ ErrorAgregar.idDuplicado :=
  ⟨rfl, rfl, by decide⟩

/-- C10: `agregar_producto` runs the five field validations before the
duplicate-id lookup: any input violating a field constraint yields a
validation error even when the id is already taken, and the conflict error
can only fire when every field is valid. -/
theorem agregar_valida_antes_del_duplicado (c : List Producto) (id : Int)
    (n cat : String) (p : ℚ) (q : Int) (prov : String) :
    (¬ camposValidos n cat p q prov →
      ∃ e, agregarProducto c id n cat p q prov = .error e ∧
        e ≠ ErrorAgregar.idDuplicado) ∧
    (agregarProducto c id n cat p q prov = .error .idDuplicado →
      camposValidos n cat p q prov) := by
  constructor
  · intro hnv
    unfold agregarProducto
    split_ifs with h1 h2 h3 h4 h5 h6 <;>
      first
        | exact ⟨_, rfl, by decide⟩
        | exact absurd ⟨h1, h2, not_lt.mp h3, not_lt.mp h4, h5⟩ hnv
  · intro h
    unfold agregarProducto at h
    split_ifs at h with h1 h2 h3 h4 h5 h6 <;>
      first
        | exact ⟨h1, h2, not_lt.mp h3, not_lt.mp h4, h5⟩
        | simp at h

theorem agregar_valida_testigo :
    ∃ e, agregarProducto [P0] 1 cadenaVacia catAccesorios 10 3 provAcme
      = .error e ∧ e ≠ ErrorAgregar.idDuplicado :=
  (agregar_valida_antes_del_duplicado [P0] 1 cadenaVacia catAccesorios 10 3
    provAcme).1 (by decide)

/-- C3 counterexample to the claim as stated: an Update runs no validation
at all, so a sequence of calls none of which raises a validation error can
leave a product with a negative price in the catalog. -/
theorem actualizar_sin_validar_rompe_invariante :
    agregarProducto [] 1 nomMouse catAccesorios 10 3 provAcme = .ok [P0] ∧
    (modificarProducto 1 datosNegativos [P0]).2 = true ∧
    ¬ invCatalogo (run opsC3 { productos := [], ventas := [] }).productos := by
  exact ⟨rfl, rfl, by decide⟩

/-- C3 (amended): after any sequence of Add, Update and Execute calls in
which every Update's supplied price/quantity fields are non-negative,
every product of the catalog has non-negative quantity and price.  (Add
validates its own fields and Execute never drives stock below zero, so only
Update needs the side condition.) -/
theorem invariante_con_actualizaciones_seguras (ops : List Op) (s : Estado)
    (hinv : invCatalogo s.productos)
    (hops : ∀ op ∈ ops, opSegura op = true) :
    invCatalogo (run ops s).productos := by
  induction ops generalizing s with
  | nil => exact hinv
  | cons op resto ih =>
    rw [run_cons]
    exact ih _ (invCatalogo_applyOp hinv (hops op (by simp)))
      (fun o ho => hops o (by simp [ho]))

theorem invariante_testigo :
    invCatalogo (run opsTestigo { productos := [], ventas := [] }).productos :=
  invariante_con_actualizaciones_seguras opsTestigo { productos := [], ventas := [] }
    (by decide) (by decide)

/-- C6: searching by name (resp. supplier) returns exactly the products
whose name (resp. supplier) contains the value as a case-insensitive
substring, ordered ascending by product id. -/
theorem busqueda_subcadena_ordenada (c : List Producto) (v : String) :
    (∃ r, buscarProducto criterioNombre v c = .ok r ∧
        r.Perm (c.filter fun p => contieneCI v p.nombre) ∧
        r.Pairwise ordenAsc) ∧
    (∃ r, buscarProducto criterioProveedor v c = .ok r ∧
        r.Perm (c.filter fun p => contieneCI v p.proveedor) ∧
        r.Pairwise ordenAsc) :=
  ⟨⟨_, rfl, List.perm_insertionSort _ _, List.sorted_insertionSort _ _⟩,
   ⟨_, rfl, List.perm_insertionSort _ _, List.sorted_insertionSort _ _⟩⟩

/-- C7: both halves of the report come from one catalog read `c`: the total
value is the sum of `quantity * price` over exactly that record set, and the
low-stock list is exactly its products with quantity strictly below 5. -/
theorem reporte_consistente (c : List Producto) :
    generarReporte c
      = (c.filter (fun p => decide (p.cantidad < 5)),
         (c.map fun p => (p.cantidad : ℚ) * p.precio).sum) := by
  unfold generarReporte
  have h := generarReporte_foldl c [] 0
  simpa [STOCK_MINIMO] using h

/-- C8: the sales history filters by exact user match (when a non-empty
user filter is given) and by an inclusive timestamp range, is ordered by
descending timestamp, and a calendar end date is widened to the last second
of that day before querying. -/
theorem historial_filtrado_ordenado (fu : Option String) (fd fh : Option Int)
    (vs : List Venta) :
    (obtenerVentas fu fd fh vs).Perm (vs.filter (filtroVentas fu fd fh)) ∧
    (obtenerVentas fu fd fh vs).Pairwise ordenDesc ∧
    (∀ u : String, u ≠ "" → ∀ v : Venta,
      filtroVentas (some u) fd fh v = true ↔
        (v.usuario = some u ∧ (∀ x, fd = some x → x ≤ v.fecha) ∧
          (∀ x, fh = some x → v.fecha ≤ x))) ∧
    (∀ (u : String) (d : Int),
      cargarVentas u fd (some d) vs
        = obtenerVentas (if u = "" then none else some u) fd (some (d + 86399)) vs) := by
  refine ⟨List.perm_insertionSort _ _, List.sorted_insertionSort _ _, ?_,
    fun u d => rfl⟩
  intro u hu v
  unfold filtroVentas
  rcases fd with _ | x1 <;> rcases fh with _ | x2 <;> simp [hu, and_assoc]

theorem historial_filtrado_testigo :
    filtroVentas (some usuarioAna) (some 10) (some 99) ventaEjemplo = true ↔
      (ventaEjemplo.usuario = some usuarioAna ∧
        (∀ x, (some 10 : Option Int) = some x → x ≤ ventaEjemplo.fecha) ∧
        (∀ x, (some 99 : Option Int) = some x → ventaEjemplo.fecha ≤ x)) :=
  (historial_filtrado_ordenado (some usuarioAna) (some 10) (some 99) []).2.2.1
    usuarioAna (by decide) ventaEjemplo

end Inventario
